import Mathlib

/-!
# SiteForgeAI backend — verification of the AI quota/subscription gating
and generation-response parsing

Shallow embedding of the repository's core logic:

* `src/server/storage.ts` — `DatabaseStorage.getAiUsage`, `incrementAiUsage`,
  `logAiGeneration`, `getSubscriptionStatus`, `updateSubscription`.
  The relational store is modelled as a function from user id to an optional
  user row plus an append-only list of generation records; a drizzle
  `db.update(...).where(eq(users.id, id))` is modelled as a pointwise update
  of that function at `id`.
* `src/server/routes.ts` — the `POST /api/ai/generate` handler, as a pure
  state-passing function from (store, caller id, prompt) to (response, store).
  The provider call inside the handler's `try` block is passed in as a
  parameter of type `String → Except Unit (String × Nat)`; the deployed
  provider is the infallible placeholder (`placeholderProvider`), and an
  `Except.error` models a thrown provider error (caught by the handler's
  `catch`, which returns 503).
* the OpenAI service file (`generateWebsite` / `regenerateSection`) — the
  response-parsing stage of each function, over `List Char`.  `JSON.parse`
  is modelled by an executable JSON parser (`jsonParse`), and the two
  regular-expression fallbacks (`/<!DOCTYPE html>[\s\S]*<\/html>/i` and
  `/<style[^>]*>([\s\S]*?)<\/style>/i`) by explicit leftmost-match scans.
-/

/-- The `planType` column: `"free" | "pro" | "enterprise"` (string enum in the
TS schema, modelled as an inductive). -/
inductive PlanType where
  | free
  | pro
  | enterprise
deriving DecidableEq, Repr

/-- The `subscriptionStatus` column:
`"free" | "active" | "past_due" | "cancelled"`. -/
inductive SubStatus where
  | free
  | active
  | past_due
  | cancelled
deriving DecidableEq, Repr

/-- The fields of a `users` row that the gating logic reads and writes. -/
structure User where
  planType : PlanType
  subscriptionStatus : SubStatus
  aiGenerationsUsed : Nat
  aiGenerationsLimit : Nat
deriving DecidableEq, Repr

/-- One row of the `aiGenerations` table
(`logAiGeneration` inserts `{userId, prompt, result, tokensUsed}`). -/
structure AiGeneration where
  userId : String
  prompt : String
  result : String
  tokensUsed : Nat
deriving DecidableEq, Repr

/-- The relational store: the `users` table as a partial map from id to row,
and the `aiGenerations` table as an append-only list. -/
structure Store where
  users : String → Option User
  aiGenerations : List AiGeneration

/-- `db.update(users).set(u).where(eq(users.id, userId))` with a fully
specified new row `u`: pointwise update of the `users` map. -/
def setUser (db : Store) (userId : String) (u : User) : Store :=
  { db with users := fun id => if id = userId then some u else db.users id }

/-- Return shape of `getAiUsage`: `{ used, limit, remaining }`. -/
structure AiUsage where
  used : Nat
  limit : Nat
  remaining : Nat
deriving DecidableEq, Repr

/-- `DatabaseStorage.getAiUsage` (storage.ts): missing user defaults to
`{used: 0, limit: 3, remaining: 3}`; otherwise
`remaining = Math.max(0, limit - used)` (Nat subtraction already truncates,
the `max 0` mirrors the JS `Math.max`). -/
def getAiUsage (db : Store) (userId : String) : AiUsage :=
  match db.users userId with
  | none => { used := 0, limit := 3, remaining := 3 }
  | some user =>
      { used := user.aiGenerationsUsed
        limit := user.aiGenerationsLimit
        remaining := max 0 (user.aiGenerationsLimit - user.aiGenerationsUsed) }

/-- `DatabaseStorage.incrementAiUsage` (storage.ts): returns the boolean
result together with the updated store.
* missing user → `false`, no write;
* `hasPaidPlan && isActiveSubscription` → `true`, no write;
* `used >= limit` → `false`, no write;
* otherwise one persisted write setting `aiGenerationsUsed := used + 1`,
  returns `true`. -/
def incrementAiUsage (db : Store) (userId : String) : Bool × Store :=
  match db.users userId with
  | none => (false, db)
  | some user =>
      let hasPaidPlan :=
        user.planType == PlanType.pro || user.planType == PlanType.enterprise
      let isActiveSubscription := user.subscriptionStatus == SubStatus.active
      if hasPaidPlan && isActiveSubscription then
        (true, db)
      else if user.aiGenerationsUsed ≥ user.aiGenerationsLimit then
        (false, db)
      else
        (true, setUser db userId
          { user with aiGenerationsUsed := user.aiGenerationsUsed + 1 })

/-- `DatabaseStorage.logAiGeneration` (storage.ts): inserts one row into
`aiGenerations` and returns it. -/
def logAiGeneration (db : Store) (userId prompt result : String)
    (tokensUsed : Nat) : AiGeneration × Store :=
  let gen : AiGeneration :=
    { userId := userId, prompt := prompt, result := result, tokensUsed := tokensUsed }
  (gen, { db with aiGenerations := db.aiGenerations ++ [gen] })

/-- Return shape of `getSubscriptionStatus`:
`{ planType, status, isBlocked, canUseAi }`. -/
structure SubscriptionInfo where
  planType : PlanType
  status : SubStatus
  isBlocked : Bool
  canUseAi : Bool
deriving DecidableEq, Repr

/-- `DatabaseStorage.getSubscriptionStatus` (storage.ts): missing user
defaults to `{planType: "free", status: "free", isBlocked: false,
canUseAi: true}`; otherwise
`isBlocked = status === "past_due" || status === "cancelled"`,
`canUseAi = !isBlocked && (hasCredits || hasPaidPlan)`. -/
def getSubscriptionStatus (db : Store) (userId : String) : SubscriptionInfo :=
  match db.users userId with
  | none =>
      { planType := PlanType.free, status := SubStatus.free
        isBlocked := false, canUseAi := true }
  | some user =>
      let planType := user.planType
      let status := user.subscriptionStatus
      let isBlocked :=
        status == SubStatus.past_due || status == SubStatus.cancelled
      let hasCredits :=
        decide (user.aiGenerationsUsed < user.aiGenerationsLimit)
      let hasPaidPlan :=
        planType == PlanType.pro || planType == PlanType.enterprise
      let canUseAi := !isBlocked && (hasCredits || hasPaidPlan)
      { planType := planType, status := status
        isBlocked := isBlocked, canUseAi := canUseAi }

/-- The `limits` table inside `updateSubscription`
(`{free: 3, pro: 999999, enterprise: 999999}`). -/
def subscriptionLimits (planType : PlanType) : Nat :=
  match planType with
  | PlanType.free => 3
  | PlanType.pro => 999999
  | PlanType.enterprise => 999999

/-- `DatabaseStorage.updateSubscription` (storage.ts): a SQL `UPDATE … WHERE
id = userId` setting `planType`, `subscriptionStatus`,
`aiGenerationsLimit := limits[planType]`, and additionally
`aiGenerationsUsed := 0` when `planType === "free"`.  An `UPDATE` whose
`WHERE` matches no row is a no-op, hence the `none` branch. -/
def updateSubscription (db : Store) (userId : String) (planType : PlanType)
    (status : SubStatus) : Store :=
  match db.users userId with
  | none => db
  | some user =>
      setUser db userId
        { user with
            planType := planType
            subscriptionStatus := status
            aiGenerationsLimit := subscriptionLimits planType
            aiGenerationsUsed :=
              if planType = PlanType.free then 0 else user.aiGenerationsUsed }

/-- The responses the `POST /api/ai/generate` handler can produce:
* `paymentRequired` — 402 with the subscription snapshot (`isBlocked`);
* `quotaExceeded` — 403 with the snapshot (`!canUseAi`, before the provider);
* `providerUnavailable` — 503 from the provider `catch` block;
* `quotaExceededAtConsume` — 403 when `incrementAiUsage` returns false;
* `ok` — 200 with `{result, tokensUsed, usage}`. -/
inductive GenerateResponse where
  | paymentRequired (subscription : SubscriptionInfo)
  | quotaExceeded (subscription : SubscriptionInfo)
  | providerUnavailable
  | quotaExceededAtConsume
  | ok (result : String) (tokensUsed : Nat) (usage : AiUsage)
deriving DecidableEq, Repr

/-- The `tokensUsed` of a 200 response, if any. -/
def GenerateResponse.tokensOf : GenerateResponse → Option Nat
  | GenerateResponse.ok _ t _ => some t
  | _ => none

/-- The placeholder result string built in the handler's `try` block. -/
def placeholderResult (prompt : String) : String :=
  "Generated content for: " ++ prompt ++
    ". This is a placeholder - connect OpenAI API for real AI generation."

/-- The provider work inside the handler's `try` block:
`result` is the placeholder template string and
`tokensUsed = Math.floor(prompt.length * 1.5) = 3 * length / 2`
(exact for any realistic length, since `3 * length` is far below `2^53`).
This provider never throws. -/
def placeholderProvider (prompt : String) : Except Unit (String × Nat) :=
  Except.ok (placeholderResult prompt, 3 * prompt.length / 2)

/-- The `POST /api/ai/generate` handler (routes.ts), parameterised by the
provider work of its `try` block; an `Except.error` from `provider` models a
thrown provider error, answered by the `catch` with 503.  (The handler also
reads `getAiUsage` before the provider call; that read has no effect and is
omitted.) -/
def aiGenerateRoute (provider : String → Except Unit (String × Nat))
    (db : Store) (userId : String) (prompt : String) :
    GenerateResponse × Store :=
  let subscription := getSubscriptionStatus db userId
  if subscription.isBlocked then
    (GenerateResponse.paymentRequired subscription, db)
  else if !subscription.canUseAi then
    (GenerateResponse.quotaExceeded subscription, db)
  else
    match provider prompt with
    | Except.error _ => (GenerateResponse.providerUnavailable, db)
    | Except.ok (result, tokensUsed) =>
        let step := incrementAiUsage db userId
        if !step.fst then
          (GenerateResponse.quotaExceededAtConsume, step.snd)
        else
          let logged := logAiGeneration step.snd userId prompt result tokensUsed
          let updatedUsage := getAiUsage logged.snd userId
          (GenerateResponse.ok result tokensUsed updatedUsage, logged.snd)

/-- A one-user store, for concrete instances. -/
def mkStore (uid : String) (u : User) : Store :=
  { users := fun id => if id = uid then some u else none, aiGenerations := [] }

/-- Sample rows used by the concrete instances below. -/
def blockedPro : User :=
  { planType := PlanType.pro, subscriptionStatus := SubStatus.past_due,
    aiGenerationsUsed := 0, aiGenerationsLimit := 3 }

def freeExhausted : User :=
  { planType := PlanType.free, subscriptionStatus := SubStatus.free,
    aiGenerationsUsed := 3, aiGenerationsLimit := 3 }

def freeFresh : User :=
  { planType := PlanType.free, subscriptionStatus := SubStatus.active,
    aiGenerationsUsed := 0, aiGenerationsLimit := 3 }

def proActive : User :=
  { planType := PlanType.pro, subscriptionStatus := SubStatus.active,
    aiGenerationsUsed := 5, aiGenerationsLimit := 999999 }

def proNeverActivated : User :=
  { planType := PlanType.pro, subscriptionStatus := SubStatus.free,
    aiGenerationsUsed := 1, aiGenerationsLimit := 3 }

/-- `n` successive calls of `incrementAiUsage` for the same account,
keeping only the store. -/
def iterateConsume (db : Store) (userId : String) : Nat → Store
  | 0 => db
  | n + 1 => iterateConsume (incrementAiUsage db userId).snd userId n

/-- A parsed JSON value.  Object member lists keep every binding in source
order; property lookup takes the last binding, as `JSON.parse` does for
duplicate keys. -/
inductive Json where
  | null
  | bool (b : Bool)
  | num (raw : List Char)
  | str (s : List Char)
  | arr (elems : List Json)
  | obj (members : List (List Char × Json))

/-- JSON whitespace (`space`, `\t`, `\n`, `\r`), as accepted by `JSON.parse`
between tokens. -/
def jsonWs (c : Char) : Bool :=
  c == ' ' || c == '\t' || c == '\n' || c == '\r'

/-- Skip JSON whitespace. -/
def skipWs (s : List Char) : List Char :=
  s.dropWhile jsonWs

/-- Value of one hexadecimal digit. -/
def hexVal (c : Char) : Option Nat :=
  if '0' ≤ c ∧ c ≤ '9' then some (c.toNat - '0'.toNat)
  else if 'a' ≤ c ∧ c ≤ 'f' then some (c.toNat - 'a'.toNat + 10)
  else if 'A' ≤ c ∧ c ≤ 'F' then some (c.toNat - 'A'.toNat + 10)
  else none

/-- Prepend a decoded character to a string-body parse result. -/
def consStr (c : Char) (r : Option (List Char × List Char)) :
    Option (List Char × List Char) :=
  match r with
  | some (cs, rest) => some (c :: cs, rest)
  | none => none

/-- Body of a JSON string after the opening quote: decoded characters plus
the input after the closing quote.  Escapes `\" \\ \/ \b \f \n \r \t \uXXXX`
are decoded; raw control characters below U+0020 are rejected. -/
def jsonStringBody : Nat → List Char → Option (List Char × List Char)
  | 0, _ => none
  | fuel + 1, s =>
    match s with
    | [] => none
    | '"' :: rest => some ([], rest)
    | '\\' :: rest =>
      (match rest with
       | '"' :: r => consStr '"' (jsonStringBody fuel r)
       | '\\' :: r => consStr '\\' (jsonStringBody fuel r)
       | '/' :: r => consStr '/' (jsonStringBody fuel r)
       | 'b' :: r => consStr '\x08' (jsonStringBody fuel r)
       | 'f' :: r => consStr '\x0c' (jsonStringBody fuel r)
       | 'n' :: r => consStr '\n' (jsonStringBody fuel r)
       | 'r' :: r => consStr '\x0d' (jsonStringBody fuel r)
       | 't' :: r => consStr '\t' (jsonStringBody fuel r)
       | 'u' :: h1 :: h2 :: h3 :: h4 :: r =>
         (match hexVal h1, hexVal h2, hexVal h3, hexVal h4 with
          | some a, some b, some c, some d =>
              consStr (Char.ofNat (((a * 16 + b) * 16 + c) * 16 + d))
                (jsonStringBody fuel r)
          | _, _, _, _ => none)
       | _ => none)
    | c :: rest =>
      if c.toNat < 32 then none
      else consStr c (jsonStringBody fuel rest)

/-- Leading run of decimal digits. -/
def decDigits (s : List Char) : List Char × List Char :=
  s.span (fun c => c.isDigit)

/-- Optional fraction and exponent of a JSON number, given the sign and
integer part already consumed; ill-formed fraction/exponent text is left
unconsumed (at every call site the leftover then fails the surrounding
grammar exactly as `JSON.parse` rejects the malformed number). -/
def jsonNumberTail (neg intPart s : List Char) : List Char × List Char :=
  let fracState : List Char × List Char :=
    match s with
    | '.' :: r =>
      let p := decDigits r
      if p.fst.isEmpty then ([], s) else ('.' :: p.fst, p.snd)
    | _ => ([], s)
  let s2 := fracState.snd
  let expState : List Char × List Char :=
    match s2 with
    | c :: r =>
      if c = 'e' ∨ c = 'E' then
        match r with
        | sgn :: r2 =>
          if sgn = '+' ∨ sgn = '-' then
            let p := decDigits r2
            if p.fst.isEmpty then ([], s2) else (c :: sgn :: p.fst, p.snd)
          else
            let p := decDigits r
            if p.fst.isEmpty then ([], s2) else (c :: p.fst, p.snd)
        | [] => ([], s2)
      else ([], s2)
    | [] => ([], s2)
  (neg ++ intPart ++ fracState.fst ++ expState.fst, expState.snd)

/-- A JSON number at the head of the input: raw numeral text plus the rest.
Grammar: `-? (0 | [1-9][0-9]*) (. [0-9]+)? ([eE][+-]?[0-9]+)?`. -/
def jsonNumber (s : List Char) : Option (List Char × List Char) :=
  let signState : List Char × List Char :=
    match s with
    | '-' :: r => (['-'], r)
    | _ => ([], s)
  match signState.snd with
  | [] => none
  | c :: r =>
    if c = '0' then some (jsonNumberTail signState.fst ['0'] r)
    else if c.isDigit then
      let p := decDigits r
      some (jsonNumberTail signState.fst (c :: p.fst) p.snd)
    else none

mutual

/-- A JSON value at the head of the input (after whitespace), returning the
value and the remaining input.  Fuel-indexed; `jsonParse` supplies ample
fuel. -/
def jsonValue : Nat → List Char → Option (Json × List Char)
  | 0, _ => none
  | fuel + 1, s =>
    match skipWs s with
    | 'n' :: 'u' :: 'l' :: 'l' :: rest => some (Json.null, rest)
    | 't' :: 'r' :: 'u' :: 'e' :: rest => some (Json.bool true, rest)
    | 'f' :: 'a' :: 'l' :: 's' :: 'e' :: rest => some (Json.bool false, rest)
    | '"' :: rest =>
      (match jsonStringBody (rest.length + 1) rest with
       | some (cs, rest') => some (Json.str cs, rest')
       | none => none)
    | '[' :: rest =>
      (match skipWs rest with
       | ']' :: rest' => some (Json.arr [], rest')
       | other =>
         match jsonElems fuel other with
         | some (xs, rest') => some (Json.arr xs, rest')
         | none => none)
    | '\x7b' :: rest =>
      (match skipWs rest with
       | '\x7d' :: rest' => some (Json.obj [], rest')
       | other =>
         match jsonMembers fuel other with
         | some (kvs, rest') => some (Json.obj kvs, rest')
         | none => none)
    | other =>
      match jsonNumber other with
      | some (raw, rest) => some (Json.num raw, rest)
      | none => none

/-- One or more comma-separated array elements followed by `]`. -/
def jsonElems : Nat → List Char → Option (List Json × List Char)
  | 0, _ => none
  | fuel + 1, s =>
    match jsonValue fuel s with
    | none => none
    | some (v, rest) =>
      match skipWs rest with
      | ',' :: rest' =>
        (match jsonElems fuel rest' with
         | some (xs, rest'') => some (v :: xs, rest'')
         | none => none)
      | ']' :: rest' => some ([v], rest')
      | _ => none

/-- One or more `"key": value` members followed by the closing brace. -/
def jsonMembers : Nat → List Char → Option (List (List Char × Json) × List Char)
  | 0, _ => none
  | fuel + 1, s =>
    match skipWs s with
    | '"' :: rest =>
      (match jsonStringBody (rest.length + 1) rest with
       | none => none
       | some (key, rest1) =>
         match skipWs rest1 with
         | ':' :: rest2 =>
           (match jsonValue fuel rest2 with
            | none => none
            | some (v, rest3) =>
              match skipWs rest3 with
              | ',' :: rest4 =>
                (match jsonMembers fuel rest4 with
                 | some (kvs, rest5) => some ((key, v) :: kvs, rest5)
                 | none => none)
              | '\x7d' :: rest4 => some ([(key, v)], rest4)
              | _ => none)
         | _ => none)
    | _ => none

end


/-- `JSON.parse`: a complete value with only whitespace around it. -/
def jsonParse (s : List Char) : Option Json :=
  match jsonValue (2 * s.length + 2) s with
  | some (v, rest) => if (skipWs rest).isEmpty then some v else none
  | none => none

/-- Global replace of `` /```json\n?/ `` with the empty string: a match
consumes the seven-character fence marker plus one optional following
newline (the `?` is greedy), and scanning resumes after the match. -/
def stripJsonFences : List Char → List Char
  | [] => []
  | '\x60' :: '\x60' :: '\x60' :: 'j' :: 's' :: 'o' :: 'n' :: '\n' :: rest =>
      stripJsonFences rest
  | '\x60' :: '\x60' :: '\x60' :: 'j' :: 's' :: 'o' :: 'n' :: rest =>
      stripJsonFences rest
  | c :: rest => c :: stripJsonFences rest

/-- Global replace of `` /```\n?/ `` with the empty string (second `replace`
in the source, run after `stripJsonFences`). -/
def stripBacktickFences : List Char → List Char
  | [] => []
  | '\x60' :: '\x60' :: '\x60' :: '\n' :: rest => stripBacktickFences rest
  | '\x60' :: '\x60' :: '\x60' :: rest => stripBacktickFences rest
  | c :: rest => c :: stripBacktickFences rest

/-- The whitespace removed by `String.prototype.trim` (ASCII part). -/
def jsWhitespace (c : Char) : Bool :=
  c == ' ' || c == '\t' || c == '\n' || c == '\x0d' || c == '\x0b' || c == '\x0c'

/-- `String.prototype.trim`. -/
def trimChars (s : List Char) : List Char :=
  (((s.dropWhile jsWhitespace).reverse).dropWhile jsWhitespace).reverse

/-- The `cleanedContent` of the source: strip both fence patterns, then
trim. -/
def cleanContent (content : List Char) : List Char :=
  trimChars (stripBacktickFences (stripJsonFences content))

/-- Case-insensitive character comparison (the regexes carry the `i` flag
and all pattern letters are ASCII). -/
def lowerEq (a b : Char) : Bool :=
  a.toLower == b.toLower

/-- `pat` matches case-insensitively at the head of `s`. -/
def ciStarts : List Char → List Char → Bool
  | [], _ => true
  | _ :: _, [] => false
  | p :: ps, c :: cs => lowerEq p c && ciStarts ps cs

/-- Index of the first case-insensitive occurrence of `pat` in `s`. -/
def ciFindFirst (pat : List Char) : List Char → Option Nat
  | [] => if ciStarts pat [] then some 0 else none
  | c :: rest =>
    if ciStarts pat (c :: rest) then some 0
    else
      match ciFindFirst pat rest with
      | some i => some (i + 1)
      | none => none

/-- Index of the last case-insensitive occurrence of `pat` in `s`. -/
def ciFindLast (pat : List Char) : List Char → Option Nat
  | [] => if ciStarts pat [] then some 0 else none
  | c :: rest =>
    match ciFindLast pat rest with
    | some i => some (i + 1)
    | none => if ciStarts pat (c :: rest) then some 0 else none

def doctypeLit : List Char := "<!DOCTYPE html>".toList

def htmlCloseLit : List Char := "</html>".toList

def styleOpenLit : List Char := "<style".toList

def styleCloseLit : List Char := "</style>".toList

/-- `content.match(/<!DOCTYPE html>[\s\S]*<\/html>/i)`: the match starts at
the first case-insensitive `<!DOCTYPE html>` and, `[\s\S]*` being greedy,
extends to the end of the last `</html>` after it; if the first
`<!DOCTYPE html>` has no `</html>` after it no later start can have one
either, so the whole regex fails. -/
def doctypeMatch (content : List Char) : Option (List Char) :=
  match ciFindFirst doctypeLit content with
  | none => none
  | some i =>
    match ciFindLast htmlCloseLit (content.drop (i + doctypeLit.length)) with
    | none => none
    | some j =>
      some ((content.drop i).take (doctypeLit.length + j + htmlCloseLit.length))

/-- Attempt `/<style[^>]*>([\s\S]*?)<\/style>/i` anchored at the head of
`s`, returning the first capture group: after `<style`, the greedy `[^>]*`
must take the maximal run of non-`>` characters (backtracking cannot help,
since `>` itself can never be matched by `[^>]`), then `>`, then the lazy
body up to the first `</style>`. -/
def tryStyleAt (s : List Char) : Option (List Char) :=
  if ciStarts styleOpenLit s then
    let after := s.drop styleOpenLit.length
    let attrs := after.takeWhile (fun c => !(c == '>'))
    match after.drop attrs.length with
    | '>' :: body =>
      (match ciFindFirst styleCloseLit body with
       | some k => some (body.take k)
       | none => none)
    | _ => none
  else none

/-- Leftmost successful `tryStyleAt` position. -/
def styleScan : List Char → Option (List Char)
  | [] => none
  | c :: rest =>
    match tryStyleAt (c :: rest) with
    | some capture => some capture
    | none => styleScan rest

/-- `content.match(/<style[^>]*>([\s\S]*?)<\/style>/i)`, first capture
group. -/
def styleMatch (content : List Char) : Option (List Char) :=
  styleScan content

/-- JavaScript truthiness of the numbers `JSON.parse` can produce: zero is
falsy, and zero is exactly a numeral whose mantissa digits are all `0`. -/
def numIsZero (raw : List Char) : Bool :=
  (raw.takeWhile (fun c => !(c == 'e') && !(c == 'E'))).all
    (fun c => !c.isDigit || c == '0')

/-- JavaScript truthiness of a parsed JSON value. -/
def jsTruthy : Json → Bool
  | Json.null => false
  | Json.bool b => b
  | Json.num raw => !numIsZero raw
  | Json.str s => !s.isEmpty
  | Json.arr _ => true
  | Json.obj _ => true

/-- `v || w` for parsed JSON values. -/
def jsOr (v w : Json) : Json :=
  if jsTruthy v then v else w

/-- `parsed.html`-style property access on a parsed JSON value of any
shape: on an object, the last binding of the key (duplicate keys overwrite,
as in `JSON.parse`); on a non-object (bool/number/string/array) the access
yields `undefined`, which behaves like `Json.null` under `||`.  (Access on
`null` itself throws instead — handled at the call sites.) -/
def jsGetField (v : Json) (key : List Char) : Json :=
  match v with
  | Json.obj kvs =>
      (kvs.foldl
        (fun acc kv => if kv.fst == key then some kv.snd else acc)
        (none : Option Json)).getD Json.null
  | _ => Json.null

def htmlKey : List Char := "html".toList

def cssKey : List Char := "css".toList

/-- The `GeneratedWebsite` result `{html, css}`.  Fields hold parsed JSON
values because `parsed.html || ""` can propagate any truthy value at
runtime, not just strings. -/
structure GeneratedWebsite where
  html : Json
  css : Json

def generateFailMsg : List Char :=
  "Failed to generate website. Please try again.".toList

def regenerateFailMsg : List Char :=
  "Failed to update website section. Please try again.".toList

/-- The `catch` block of `generateWebsite`: regex extraction over the *raw*
content (not the cleaned text); on a DOCTYPE match the css is the style
capture or `""`; otherwise the parse error is thrown. -/
def generateFallbackExtract (content : List Char) :
    Except (List Char) GeneratedWebsite :=
  match doctypeMatch content with
  | some htmlM =>
    Except.ok
      { html := Json.str htmlM
        css := Json.str
          (match styleMatch content with
           | some cssM => cssM
           | none => []) }
  | none => Except.error generateFailMsg

/-- Parsing stage of `generateWebsite` applied to the provider's raw text:
clean fences and trim, `JSON.parse` the cleaned text, and on success return
`{html: parsed.html || "", css: parsed.css || ""}`.  When the parsed value
is JSON `null`, `parsed.html` throws a `TypeError`, which the same `catch`
receives — hence `null` also reaches the fallback.  On parse failure the
fallback extraction runs over the raw content. -/
def generateWebsiteParse (content : List Char) :
    Except (List Char) GeneratedWebsite :=
  match jsonParse (cleanContent content) with
  | some Json.null => generateFallbackExtract content
  | some parsed =>
    Except.ok
      { html := jsOr (jsGetField parsed htmlKey) (Json.str [])
        css := jsOr (jsGetField parsed cssKey) (Json.str []) }
  | none => generateFallbackExtract content

/-- The `catch` block of `regenerateSection`: DOCTYPE extraction only, css
hardcoded to `""`; no style extraction and no use of the previous
html/css. -/
def regenerateFallbackExtract (content : List Char) :
    Except (List Char) GeneratedWebsite :=
  match doctypeMatch content with
  | some htmlM => Except.ok { html := Json.str htmlM, css := Json.str [] }
  | none => Except.error regenerateFailMsg

/-- Parsing stage of `regenerateSection`: like `generateWebsiteParse`, but
the `||` fallbacks of the structured branch are the caller's previous
`currentHtml`/`currentCss`. -/
def regenerateSectionParse (content currentHtml currentCss : List Char) :
    Except (List Char) GeneratedWebsite :=
  match jsonParse (cleanContent content) with
  | some Json.null => regenerateFallbackExtract content
  | some parsed =>
    Except.ok
      { html := jsOr (jsGetField parsed htmlKey) (Json.str currentHtml)
        css := jsOr (jsGetField parsed cssKey) (Json.str currentCss) }
  | none => regenerateFallbackExtract content

/-- A provider whose call throws (its result is irrelevant; the handler's
`catch` answers 503). -/
def failingProvider : String → Except Unit (String × Nat) :=
  fun _ => Except.error ()

/-- A provider response wrapped in a Markdown ```json code fence. -/
def fenceWrap (s : List Char) : List Char :=
  "```json\n".toList ++ s ++ "\n```".toList

/-- A structured provider response wrapped in a ```json fence, as produced
by a fenced LLM reply. -/
def sampleFencedResponse : List Char :=
  "```json\n\x7b\"html\":\"<p>x</p>\",\"css\":\"y\"\x7d\n```".toList

/-- The parse of `sampleFencedResponse` after fence-stripping. -/
def sampleParsedObj : Json :=
  Json.obj [("html".toList, Json.str "<p>x</p>".toList),
            ("css".toList, Json.str "y".toList)]

/-- A provider response that is not structured JSON but contains a full
HTML document. -/
def regenFailureResponse : List Char :=
  "oops <!DOCTYPE html><html></html>".toList

/-! ## Theorems -/

/-- C1: For every existing account, `getSubscriptionStatus` returns
`isBlocked = (subscriptionStatus ∈ {past_due, cancelled})` and
`canUseAi = ¬isBlocked ∧ ((aiGenerationsUsed < aiGenerationsLimit) ∨
(planType ∈ {pro, enterprise}))`. -/
theorem C1_getSubscriptionStatus_policy (db : Store) (userId : String)
    (u : User) (h : db.users userId = some u) :
    ((getSubscriptionStatus db userId).isBlocked = true ↔
      (u.subscriptionStatus = SubStatus.past_due ∨
       u.subscriptionStatus = SubStatus.cancelled)) ∧
    ((getSubscriptionStatus db userId).canUseAi = true ↔
      (¬ (getSubscriptionStatus db userId).isBlocked = true ∧
        (u.aiGenerationsUsed < u.aiGenerationsLimit ∨
         u.planType = PlanType.pro ∨ u.planType = PlanType.enterprise))) := by
  simp only [getSubscriptionStatus, h]
  constructor
  · simp [Bool.or_eq_true, beq_iff_eq]
  · simp [Bool.and_eq_true, Bool.or_eq_true, beq_iff_eq, Bool.not_eq_true',
      decide_eq_true_eq]

/-- Witness for C1: a pro account with `past_due` status and exhausted
credits is blocked and cannot use AI. -/
theorem C1_witness :
    (getSubscriptionStatus
        { users := fun id => if id = "u1" then
            some { planType := PlanType.pro, subscriptionStatus := SubStatus.past_due,
                   aiGenerationsUsed := 3, aiGenerationsLimit := 3 }
          else none,
          aiGenerations := [] } "u1").isBlocked = true :=
  ((C1_getSubscriptionStatus_policy
      { users := fun id => if id = "u1" then
          some { planType := PlanType.pro, subscriptionStatus := SubStatus.past_due,
                 aiGenerationsUsed := 3, aiGenerationsLimit := 3 }
        else none,
        aiGenerations := [] } "u1"
      { planType := PlanType.pro, subscriptionStatus := SubStatus.past_due,
        aiGenerationsUsed := 3, aiGenerationsLimit := 3 } rfl).1).mpr
    (Or.inl rfl)

/-- Closed form of `incrementAiUsage` on an existing row, used by several
proofs: bypass iff paid plan and active status, else reject iff the counter
reached the limit, else one increment. -/
theorem incrementAiUsage_eq (db : Store) (userId : String) (u : User)
    (h : db.users userId = some u) :
    incrementAiUsage db userId =
      if (u.planType = PlanType.pro ∨ u.planType = PlanType.enterprise) ∧
          u.subscriptionStatus = SubStatus.active then (true, db)
      else if u.aiGenerationsLimit ≤ u.aiGenerationsUsed then (false, db)
      else (true, setUser db userId
        { u with aiGenerationsUsed := u.aiGenerationsUsed + 1 }) := by
  rcases u with ⟨pt, ss, used, lim⟩
  cases pt <;> cases ss <;> simp [incrementAiUsage, h, ge_iff_le]

/-- C2: the subscription gate runs before any provider work: a blocked
account gets 402 (`paymentRequired`, carrying the snapshot) and a
non-blocked account with `canUseAi = false` gets 403 (`quotaExceeded`),
both with the store unchanged, *for every possible provider* — i.e. the
provider is never consulted on these paths. -/
theorem C2_generate_gate (provider : String → Except Unit (String × Nat))
    (db : Store) (userId prompt : String) :
    ((getSubscriptionStatus db userId).isBlocked = true →
      aiGenerateRoute provider db userId prompt =
        (GenerateResponse.paymentRequired (getSubscriptionStatus db userId), db)) ∧
    ((getSubscriptionStatus db userId).isBlocked = false →
      (getSubscriptionStatus db userId).canUseAi = false →
      aiGenerateRoute provider db userId prompt =
        (GenerateResponse.quotaExceeded (getSubscriptionStatus db userId), db)) := by
  constructor
  · intro hb
    simp [aiGenerateRoute, hb]
  · intro hb hc
    simp [aiGenerateRoute, hb, hc]

/-- Witness for C2: a past-due pro account is answered with 402; an
exhausted free account (spec scenario `{used:3, limit:3, plan:"free",
status:"free"}`) is answered with 403, in both cases with the store
untouched and for the concrete placeholder provider. -/
theorem C2_witness :
    (aiGenerateRoute placeholderProvider (mkStore "u1" blockedPro) "u1" "hi" =
      (GenerateResponse.paymentRequired
        (getSubscriptionStatus (mkStore "u1" blockedPro) "u1"),
       mkStore "u1" blockedPro)) ∧
    (aiGenerateRoute placeholderProvider (mkStore "u2" freeExhausted) "u2" "hi" =
      (GenerateResponse.quotaExceeded
        (getSubscriptionStatus (mkStore "u2" freeExhausted) "u2"),
       mkStore "u2" freeExhausted)) :=
  ⟨(C2_generate_gate placeholderProvider (mkStore "u1" blockedPro) "u1" "hi").1 rfl,
   (C2_generate_gate placeholderProvider (mkStore "u2" freeExhausted) "u2" "hi").2 rfl rfl⟩

/-- C3: for an existing account, `incrementAiUsage` returns `true` with the
row unchanged exactly when the plan is paid (`pro`/`enterprise`) *and* the
status is exactly `active`; a paid plan with status `free` falls through to
the credit-limited branch; and any number of repeated calls under
paid+active leave the store unchanged. -/
theorem C3_tryConsume_unlimited_bypass (db : Store) (userId : String)
    (u : User) (h : db.users userId = some u) :
    (((incrementAiUsage db userId).fst = true ∧
        (incrementAiUsage db userId).snd.users userId = some u) ↔
      ((u.planType = PlanType.pro ∨ u.planType = PlanType.enterprise) ∧
        u.subscriptionStatus = SubStatus.active)) ∧
    (((u.planType = PlanType.pro ∨ u.planType = PlanType.enterprise) ∧
        u.subscriptionStatus = SubStatus.active) →
      incrementAiUsage db userId = (true, db)) ∧
    (u.planType = PlanType.pro → u.subscriptionStatus = SubStatus.free →
      incrementAiUsage db userId =
        (if u.aiGenerationsUsed < u.aiGenerationsLimit then
          (true, setUser db userId
            { u with aiGenerationsUsed := u.aiGenerationsUsed + 1 })
         else (false, db))) ∧
    (((u.planType = PlanType.pro ∨ u.planType = PlanType.enterprise) ∧
        u.subscriptionStatus = SubStatus.active) →
      ∀ n, iterateConsume db userId n = db) := by
  have key := incrementAiUsage_eq db userId u h
  refine ⟨?_, ?_, ?_, ?_⟩
  · constructor
    · intro hres
      by_contra hpa
      rw [key, if_neg hpa] at hres
      by_cases hq : u.aiGenerationsLimit ≤ u.aiGenerationsUsed
      · rw [if_pos hq] at hres
        simp at hres
      · rw [if_neg hq] at hres
        have h2 := hres.2
        simp [setUser] at h2
        have h3 := congrArg User.aiGenerationsUsed h2
        simp at h3
    · intro hpa
      rw [key, if_pos hpa]
      exact ⟨rfl, h⟩
  · intro hpa
    rw [key, if_pos hpa]
  · intro hp hs
    have hpa : ¬ ((u.planType = PlanType.pro ∨ u.planType = PlanType.enterprise) ∧
        u.subscriptionStatus = SubStatus.active) := by
      rintro ⟨-, hact⟩
      rw [hs] at hact
      exact SubStatus.noConfusion hact
    rw [key, if_neg hpa]
    by_cases hq : u.aiGenerationsUsed < u.aiGenerationsLimit
    · rw [if_pos hq, if_neg (by omega)]
    · rw [if_neg hq, if_pos (by omega)]
  · intro hpa n
    induction n with
    | zero => rfl
    | succ m ih =>
        have hone : incrementAiUsage db userId = (true, db) := by
          rw [key, if_pos hpa]
        simp [iterateConsume, hone, ih]

/-- Witness for C3: an active pro account (used 5 of the 999999 sentinel)
takes the bypass, and ten successive consume calls leave the store as-is. -/
theorem C3_witness :
    incrementAiUsage (mkStore "u3" proActive) "u3" = (true, mkStore "u3" proActive) ∧
    iterateConsume (mkStore "u3" proActive) "u3" 10 = mkStore "u3" proActive :=
  ⟨(C3_tryConsume_unlimited_bypass (mkStore "u3" proActive) "u3" proActive rfl).2.1
      ⟨Or.inl rfl, rfl⟩,
   (C3_tryConsume_unlimited_bypass (mkStore "u3" proActive) "u3" proActive rfl).2.2.2
      ⟨Or.inl rfl, rfl⟩ 10⟩

/-- C4: a free-plan account with remaining credits and a non-blocked status:
a generate request (with the deployed placeholder provider) succeeds,
increments `aiGenerationsUsed` by exactly 1 in a single row write (all other
rows untouched), and appends one generation record; and whenever
`aiGenerationsUsed ≥ aiGenerationsLimit` at consume time, `incrementAiUsage`
returns `false` with the store unchanged. -/
theorem C4_generate_consumes_one_credit (db : Store) (userId prompt : String)
    (u : User) (h : db.users userId = some u)
    (hplan : u.planType = PlanType.free)
    (hs1 : u.subscriptionStatus ≠ SubStatus.past_due)
    (hs2 : u.subscriptionStatus ≠ SubStatus.cancelled) :
    (u.aiGenerationsUsed < u.aiGenerationsLimit →
      (aiGenerateRoute placeholderProvider db userId prompt).fst =
        GenerateResponse.ok (placeholderResult prompt) (3 * prompt.length / 2)
          { used := u.aiGenerationsUsed + 1, limit := u.aiGenerationsLimit,
            remaining := u.aiGenerationsLimit - (u.aiGenerationsUsed + 1) } ∧
      (aiGenerateRoute placeholderProvider db userId prompt).snd.users userId =
        some { u with aiGenerationsUsed := u.aiGenerationsUsed + 1 } ∧
      (∀ id, id ≠ userId →
        (aiGenerateRoute placeholderProvider db userId prompt).snd.users id =
          db.users id) ∧
      (aiGenerateRoute placeholderProvider db userId prompt).snd.aiGenerations =
        db.aiGenerations ++
          [{ userId := userId, prompt := prompt,
             result := placeholderResult prompt,
             tokensUsed := 3 * prompt.length / 2 }]) ∧
    (u.aiGenerationsLimit ≤ u.aiGenerationsUsed →
      incrementAiUsage db userId = (false, db)) := by
  constructor
  · intro hcred
    have hnotge : ¬ u.aiGenerationsUsed ≥ u.aiGenerationsLimit := by omega
    have hroute :
        aiGenerateRoute placeholderProvider db userId prompt =
          (GenerateResponse.ok (placeholderResult prompt) (3 * prompt.length / 2)
            { used := u.aiGenerationsUsed + 1, limit := u.aiGenerationsLimit,
              remaining := u.aiGenerationsLimit - (u.aiGenerationsUsed + 1) },
           { users := fun id =>
               if id = userId then
                 some { u with aiGenerationsUsed := u.aiGenerationsUsed + 1 }
               else db.users id,
             aiGenerations := db.aiGenerations ++
               [{ userId := userId, prompt := prompt,
                  result := placeholderResult prompt,
                  tokensUsed := 3 * prompt.length / 2 }] }) := by
      cases hss : u.subscriptionStatus with
      | past_due => exact absurd hss hs1
      | cancelled => exact absurd hss hs2
      | free =>
          simp [aiGenerateRoute, getSubscriptionStatus, h, hss, hplan, hcred,
            placeholderProvider, incrementAiUsage, hnotge, setUser,
            logAiGeneration, getAiUsage]
      | active =>
          simp [aiGenerateRoute, getSubscriptionStatus, h, hss, hplan, hcred,
            placeholderProvider, incrementAiUsage, hnotge, setUser,
            logAiGeneration, getAiUsage]
    rw [hroute]
    refine ⟨rfl, by simp, ?_, rfl⟩
    intro id hid
    simp [hid]
  · intro hge
    rw [incrementAiUsage_eq db userId u h, if_neg (by simp [hplan]),
      if_pos hge]

/-- Witness for C4: the fresh free account `{used:0, limit:3}` with status
`active` generates once, moving to `used = 1` and logging one record. -/
theorem C4_witness :
    (aiGenerateRoute placeholderProvider (mkStore "u4" freeFresh) "u4" "hi").fst =
      GenerateResponse.ok (placeholderResult "hi") 3
        { used := 1, limit := 3, remaining := 2 } ∧
    (aiGenerateRoute placeholderProvider (mkStore "u4" freeFresh) "u4" "hi").snd.aiGenerations =
      [{ userId := "u4", prompt := "hi", result := placeholderResult "hi",
         tokensUsed := 3 }] := by
  have happ := C4_generate_consumes_one_credit (mkStore "u4" freeFresh) "u4" "hi"
    freeFresh rfl rfl (by decide) (by decide)
  have h1 := (happ.1 (by decide)).1
  have h2 := (happ.1 (by decide)).2.2.2
  exact ⟨h1, h2⟩

/-- C5: for every existing account and every `(newPlan, newStatus)`,
`updateSubscription` writes exactly the new plan, the new status, the limit
from the fixed table (`free ↦ 3`, `pro ↦ 999999`, `enterprise ↦ 999999`,
with `999999` the unbounded sentinel), and resets `aiGenerationsUsed` to 0
iff `newPlan = free`; other rows and the generation log are untouched. -/
theorem C5_updateSubscription_table (db : Store) (userId : String) (u : User)
    (newPlan : PlanType) (newStatus : SubStatus)
    (h : db.users userId = some u) :
    (updateSubscription db userId newPlan newStatus).users userId =
      some { planType := newPlan, subscriptionStatus := newStatus,
             aiGenerationsUsed :=
               if newPlan = PlanType.free then 0 else u.aiGenerationsUsed,
             aiGenerationsLimit := subscriptionLimits newPlan } ∧
    subscriptionLimits PlanType.free = 3 ∧
    subscriptionLimits PlanType.pro = 999999 ∧
    subscriptionLimits PlanType.enterprise = 999999 ∧
    (∀ id, id ≠ userId →
      (updateSubscription db userId newPlan newStatus).users id = db.users id) ∧
    (updateSubscription db userId newPlan newStatus).aiGenerations =
      db.aiGenerations := by
  refine ⟨?_, rfl, rfl, rfl, ?_, ?_⟩
  · simp [updateSubscription, h, setUser]
  · intro id hid
    simp [updateSubscription, h, setUser, hid]
  · simp [updateSubscription, h, setUser]

/-- Witness for C5: downgrading the active pro account (used 5) to `free`
resets the counter to 0 and the limit to 3; upgrading the exhausted free
account to `pro`/`active` keeps `used = 3` and sets the sentinel limit. -/
theorem C5_witness :
    (updateSubscription (mkStore "u5" proActive) "u5" PlanType.free
        SubStatus.cancelled).users "u5" =
      some { planType := PlanType.free, subscriptionStatus := SubStatus.cancelled,
             aiGenerationsUsed := 0, aiGenerationsLimit := 3 } ∧
    (updateSubscription (mkStore "u6" freeExhausted) "u6" PlanType.pro
        SubStatus.active).users "u6" =
      some { planType := PlanType.pro, subscriptionStatus := SubStatus.active,
             aiGenerationsUsed := 3, aiGenerationsLimit := 999999 } :=
  ⟨(C5_updateSubscription_table (mkStore "u5" proActive) "u5" proActive
      PlanType.free SubStatus.cancelled rfl).1,
   (C5_updateSubscription_table (mkStore "u6" freeExhausted) "u6" freeExhausted
      PlanType.pro SubStatus.active rfl).1⟩

/-- C10: a caller id with no account row passes the subscription gate (the
substituted default snapshot is unblocked with `canUseAi = true`), but
`incrementAiUsage` returns `false` for the missing row, so the generate
request ends with the post-consume 403 (`quotaExceededAtConsume`, not a
404) and the store — counters and generation log — is unchanged. -/
theorem C10_generate_missing_account (db : Store) (userId prompt : String)
    (h : db.users userId = none) :
    getSubscriptionStatus db userId =
      { planType := PlanType.free, status := SubStatus.free,
        isBlocked := false, canUseAi := true } ∧
    incrementAiUsage db userId = (false, db) ∧
    aiGenerateRoute placeholderProvider db userId prompt =
      (GenerateResponse.quotaExceededAtConsume, db) := by
  refine ⟨?_, ?_, ?_⟩
  · simp [getSubscriptionStatus, h]
  · simp [incrementAiUsage, h]
  · simp [aiGenerateRoute, getSubscriptionStatus, incrementAiUsage, h,
      placeholderProvider]

/-- Witness for C10: the empty store answers `quotaExceededAtConsume` and
stays empty. -/
theorem C10_witness :
    aiGenerateRoute placeholderProvider
        { users := fun _ => none, aiGenerations := [] } "ghost" "hi" =
      (GenerateResponse.quotaExceededAtConsume,
       { users := fun _ => none, aiGenerations := [] }) :=
  (C10_generate_missing_account
    { users := fun _ => none, aiGenerations := [] } "ghost" "hi" rfl).2.2

/-! ## Model of the OpenAI service file: response parsing of
`generateWebsite` and `regenerateSection`.

Raw provider text is modelled as `List Char`.  `JSON.parse` is modelled by
the executable parser `jsonParse` below (JSON grammar with the four JSON
whitespace characters, strings with the standard escapes, strict number
syntax; numbers kept as raw numeral text, which is all their truthiness
needs).  One divergence from JavaScript: a `\uXXXX` escape denoting a lone
UTF-16 surrogate is mapped through `Char.ofNat` (which falls back to NUL),
whereas JS keeps the surrogate code unit. -/

/-- C6 is refuted: the handler computes
`tokensUsed = Math.floor(prompt.length * 1.5)`, not the ceiling.  At the
three-character prompt `"abc"` the returned `tokensUsed` is `4`, while
`ceil(3 * 1.5) = (3 * 3 + 1) / 2 = 5`. -/
theorem C6_counterexample :
    (aiGenerateRoute placeholderProvider (mkStore "u4" freeFresh) "u4" "abc").fst.tokensOf
      = some 4 ∧
    (3 * "abc".length + 1) / 2 = 5 ∧ (4 : Nat) ≠ 5 :=
  ⟨rfl, rfl, by decide⟩

/-- C6 (amended): for every prompt, a 200 response of the generate handler
carries `tokensUsed = Math.floor(prompt.length * 1.5) = 3 * length / 2`
(floor, not ceiling), an exact deterministic integer estimate. -/
theorem C6_tokensUsed_floor (db : Store) (userId prompt : String)
    (r : String) (t : Nat) (usage : AiUsage)
    (h : (aiGenerateRoute placeholderProvider db userId prompt).fst =
      GenerateResponse.ok r t usage) :
    t = 3 * prompt.length / 2 := by
  simp only [aiGenerateRoute, placeholderProvider] at h
  split at h
  · simp at h
  · split at h
    · simp at h
    · split at h
      · simp at h
      · simp only [GenerateResponse.ok.injEq] at h
        exact h.2.1.symm

/-- Witness for the amended C6: prompt `"abcd"` (length 4) yields
`tokensUsed = 6 = 3 * 4 / 2`. -/
theorem C6_witness : (6 : Nat) = 3 * "abcd".length / 2 :=
  C6_tokensUsed_floor (mkStore "u4" freeFresh) "u4" "abcd"
    (placeholderResult "abcd") 6 { used := 1, limit := 3, remaining := 2 } rfl

/-- C7: if the account passes the subscription gate and the provider call
fails, the handler answers 503 (`providerUnavailable`) and the store — in
particular `aiGenerationsUsed` — is unchanged: the quota is consumed only
after a successful provider response. -/
theorem C7_provider_failure_preserves_quota
    (provider : String → Except Unit (String × Nat)) (db : Store)
    (userId prompt : String)
    (hfail : provider prompt = Except.error ())
    (hnb : (getSubscriptionStatus db userId).isBlocked = false)
    (hcan : (getSubscriptionStatus db userId).canUseAi = true) :
    aiGenerateRoute provider db userId prompt =
      (GenerateResponse.providerUnavailable, db) := by
  simp [aiGenerateRoute, hnb, hcan, hfail]

/-- Witness for C7: the spec scenario `{used:0, limit:3, plan:"free",
status:"active"}` with a throwing provider: 503 and the store untouched. -/
theorem C7_witness :
    aiGenerateRoute failingProvider (mkStore "u8" freeFresh) "u8" "hi" =
      (GenerateResponse.providerUnavailable, mkStore "u8" freeFresh) :=
  C7_provider_failure_preserves_quota failingProvider (mkStore "u8" freeFresh)
    "u8" "hi" rfl rfl rfl

/-- `(Json.str s) || (Json.str "")` is `Json.str s` whether or not `s` is
empty. -/
theorem jsOr_str_empty (s : List Char) :
    jsOr (Json.str s) (Json.str []) = Json.str s := by
  cases s with
  | nil => rfl
  | cons c cs => rfl

/-- `stripJsonFences` passes over a character that is not a backtick. -/
theorem stripJsonFences_cons (c : Char) (rest : List Char) (h : c ≠ '\x60') :
    stripJsonFences (c :: rest) = c :: stripJsonFences rest := by
  rw [stripJsonFences.eq_def]
  split <;> simp_all

/-- `stripBacktickFences` passes over a character that is not a backtick. -/
theorem stripBacktickFences_cons (c : Char) (rest : List Char)
    (h : c ≠ '\x60') :
    stripBacktickFences (c :: rest) = c :: stripBacktickFences rest := by
  rw [stripBacktickFences.eq_def]
  split <;> simp_all

/-- Fence stripping skips over a backtick-free prefix: every match starts
with a backtick. -/
theorem stripJsonFences_append (s t : List Char)
    (h : ∀ c ∈ s, c ≠ '\x60') :
    stripJsonFences (s ++ t) = s ++ stripJsonFences t := by
  induction s with
  | nil => rfl
  | cons c cs ih =>
      rw [List.cons_append,
        stripJsonFences_cons c (cs ++ t) (h c (List.mem_cons_self c cs)),
        ih (fun x hx => h x (List.mem_cons_of_mem c hx)), List.cons_append]

theorem stripBacktickFences_append (s t : List Char)
    (h : ∀ c ∈ s, c ≠ '\x60') :
    stripBacktickFences (s ++ t) = s ++ stripBacktickFences t := by
  induction s with
  | nil => rfl
  | cons c cs ih =>
      rw [List.cons_append,
        stripBacktickFences_cons c (cs ++ t) (h c (List.mem_cons_self c cs)),
        ih (fun x hx => h x (List.mem_cons_of_mem c hx)), List.cons_append]

/-- Fence stripping is the identity on backtick-free text. -/
theorem stripJsonFences_id (s : List Char) (h : ∀ c ∈ s, c ≠ '\x60') :
    stripJsonFences s = s := by
  have h2 := stripJsonFences_append s [] h
  rw [List.append_nil] at h2
  rw [h2, show stripJsonFences [] = [] from rfl, List.append_nil]

theorem stripBacktickFences_id (s : List Char) (h : ∀ c ∈ s, c ≠ '\x60') :
    stripBacktickFences s = s := by
  have h2 := stripBacktickFences_append s [] h
  rw [List.append_nil] at h2
  rw [h2, show stripBacktickFences [] = [] from rfl, List.append_nil]

/-- Trimming absorbs a trailing newline. -/
theorem trimChars_append_newline (s : List Char) :
    trimChars (s ++ ['\n']) = trimChars s := by
  unfold trimChars
  rw [List.dropWhile_append]
  by_cases he : (s.dropWhile jsWhitespace).isEmpty
  · have h1 : List.dropWhile jsWhitespace s = [] := List.isEmpty_iff.mp he
    rw [if_pos he, h1]
    rfl
  · rw [if_neg he, List.reverse_append]
    congr 1

/-- On backtick-free text, cleaning is just trimming. -/
theorem cleanContent_no_backtick (content : List Char)
    (h : ∀ c ∈ content, c ≠ '\x60') :
    cleanContent content = trimChars content := by
  unfold cleanContent
  rw [stripJsonFences_id content h, stripBacktickFences_id content h]

/-- Fence stripping recovers the unwrapped cleaned text: wrapping a
backtick-free response in a ```json fence does not change `cleanContent`. -/
theorem cleanContent_fenceWrap (content : List Char)
    (h : ∀ c ∈ content, c ≠ '\x60') :
    cleanContent (fenceWrap content) = cleanContent content := by
  have h1 : stripJsonFences (fenceWrap content) =
      content ++ ('\n' :: "```".toList) := by
    have e1 : fenceWrap content =
        '\x60' :: '\x60' :: '\x60' :: 'j' :: 's' :: 'o' :: 'n' :: '\n' ::
          (content ++ "\n```".toList) := by
      simp [fenceWrap]
    rw [e1,
      show stripJsonFences
          ('\x60' :: '\x60' :: '\x60' :: 'j' :: 's' :: 'o' :: 'n' :: '\n' ::
            (content ++ "\n```".toList)) =
        stripJsonFences (content ++ "\n```".toList) from rfl,
      stripJsonFences_append content _ h,
      show stripJsonFences "\n```".toList = '\n' :: "```".toList from rfl]
  have h2 : stripBacktickFences (content ++ ('\n' :: "```".toList)) =
      content ++ ['\n'] := by
    rw [show ('\n' :: "```".toList) = ['\n'] ++ "```".toList from rfl,
      ← List.append_assoc,
      stripBacktickFences_append (content ++ ['\n']) _
        (by
          intro c hc
          rcases List.mem_append.mp hc with hc1 | hc2
          · exact h c hc1
          · simp at hc2
            rw [hc2]
            decide),
      show stripBacktickFences "```".toList = [] from rfl, List.append_nil]
  unfold cleanContent
  rw [h1, h2, trimChars_append_newline,
    stripJsonFences_id content h, stripBacktickFences_id content h]

/-- A case-insensitive prefix is no longer than the text. -/
theorem ciStarts_length {pat s : List Char} (h : ciStarts pat s = true) :
    pat.length ≤ s.length := by
  induction pat generalizing s with
  | nil => simp
  | cons p ps ih =>
      cases s with
      | nil => simp [ciStarts] at h
      | cons c cs =>
          simp only [ciStarts, Bool.and_eq_true] at h
          have := ih h.2
          simp only [List.length_cons]
          omega

/-- A case-insensitive prefix survives truncation beyond its length. -/
theorem ciStarts_take {pat s : List Char} (n : Nat)
    (h : ciStarts pat s = true) (hn : pat.length ≤ n) :
    ciStarts pat (s.take n) = true := by
  induction pat generalizing s n with
  | nil => simp [ciStarts]
  | cons p ps ih =>
      cases s with
      | nil => simp [ciStarts] at h
      | cons c cs =>
          cases n with
          | zero => simp at hn
          | succ m =>
              simp only [ciStarts, Bool.and_eq_true] at h
              simp only [List.take_succ_cons, ciStarts, Bool.and_eq_true]
              exact ⟨h.1, ih m h.2 (by simpa using hn)⟩

/-- `ciFindFirst` returns a position where the pattern matches. -/
theorem ciFindFirst_sound {pat s : List Char} {i : Nat}
    (h : ciFindFirst pat s = some i) :
    ciStarts pat (s.drop i) = true := by
  induction s generalizing i with
  | nil =>
      by_cases hc : ciStarts pat [] = true
      · simp only [ciFindFirst, hc, if_true, Option.some.injEq] at h
        subst h
        simpa using hc
      · simp only [ciFindFirst] at h
        rw [if_neg (by simpa using hc)] at h
        exact Option.noConfusion h
  | cons c cs ih =>
      by_cases hc : ciStarts pat (c :: cs) = true
      · simp only [ciFindFirst, hc, if_true, Option.some.injEq] at h
        rw [← h]
        simpa using hc
      · simp only [ciFindFirst] at h
        rw [if_neg (by simpa using hc)] at h
        cases hf : ciFindFirst pat cs with
        | none => rw [hf] at h; exact Option.noConfusion h
        | some i' =>
            rw [hf] at h
            simp only [Option.some.injEq] at h
            rw [← h]
            simpa using ih hf

/-- `ciFindLast` returns a position where the pattern matches. -/
theorem ciFindLast_sound {pat s : List Char} {j : Nat}
    (h : ciFindLast pat s = some j) :
    ciStarts pat (s.drop j) = true := by
  induction s generalizing j with
  | nil =>
      by_cases hc : ciStarts pat [] = true
      · simp only [ciFindLast, hc, if_true, Option.some.injEq] at h
        subst h
        simpa using hc
      · simp only [ciFindLast] at h
        rw [if_neg (by simpa using hc)] at h
        exact Option.noConfusion h
  | cons c cs ih =>
      simp only [ciFindLast] at h
      cases hf : ciFindLast pat cs with
      | some j' =>
          rw [hf] at h
          simp only [Option.some.injEq] at h
          rw [← h]
          simpa using ih hf
      | none =>
          rw [hf] at h
          by_cases hc : ciStarts pat (c :: cs) = true
          · rw [if_pos hc] at h
            simp only [Option.some.injEq] at h
            rw [← h]
            simpa using hc
          · rw [if_neg (by simpa using hc)] at h
            exact Option.noConfusion h

/-- Soundness of the modelled DOCTYPE regex: a match is an infix of the
input, starts with `<!DOCTYPE html>` (case-insensitively) and ends with
`</html>` (case-insensitively). -/
theorem doctypeMatch_sound {content m : List Char}
    (hm : doctypeMatch content = some m) :
    (∃ pre post, content = pre ++ m ++ post) ∧
    ciStarts doctypeLit m = true ∧
    ciStarts htmlCloseLit (m.drop (m.length - htmlCloseLit.length)) = true := by
  unfold doctypeMatch at hm
  cases hf : ciFindFirst doctypeLit content with
  | none => rw [hf] at hm; exact Option.noConfusion hm
  | some i =>
      rw [hf] at hm
      change (match ciFindLast htmlCloseLit
          (List.drop (i + doctypeLit.length) content) with
        | none => none
        | some j => some (List.take (doctypeLit.length + j + htmlCloseLit.length)
            (List.drop i content))) = some m at hm
      cases hl : ciFindLast htmlCloseLit
          (content.drop (i + doctypeLit.length)) with
      | none => rw [hl] at hm; exact Option.noConfusion hm
      | some j =>
          rw [hl] at hm
          have hm2 : List.take (doctypeLit.length + j + htmlCloseLit.length)
              (List.drop i content) = m := Option.some.inj hm
          clear hm
          have hdl : doctypeLit.length = 15 := rfl
          have hcl : htmlCloseLit.length = 7 := rfl
          rw [hdl, hcl] at hm2
          rw [hdl] at hl
          have hfirst := ciFindFirst_sound hf
          have hlast := ciFindLast_sound hl
          have hlen1 : 15 ≤ (content.drop i).length := by
            have := ciStarts_length hfirst
            rw [hdl] at this
            exact this
          have hlen2 : 7 ≤ (content.drop (i + 15)).length - j := by
            have := ciStarts_length hlast
            rw [hcl, List.length_drop] at this
            exact this
          have e1 : (content.drop i).length = content.length - i :=
            List.length_drop i content
          have e2 : (content.drop (i + 15)).length = content.length - (i + 15) :=
            List.length_drop (i + 15) content
          have hk : 15 + j + 7 ≤ (content.drop i).length := by omega
          subst hm2
          refine ⟨⟨content.take i, (content.drop i).drop (15 + j + 7), ?_⟩,
            ?_, ?_⟩
          · rw [List.append_assoc, List.take_append_drop,
              List.take_append_drop]
          · exact ciStarts_take (15 + j + 7) hfirst (by rw [hdl]; omega)
          · have hmlen : ((content.drop i).take (15 + j + 7)).length =
                15 + j + 7 := by
              rw [List.length_take]
              omega
            rw [hmlen, hcl]
            have e3 : (15 + j + 7) - 7 + 7 = 15 + j + 7 := by omega
            have e4 : ((content.drop i).take (15 + j + 7)).drop
                (15 + j + 7 - 7) =
                List.take 7 ((content.drop i).drop (15 + j + 7 - 7)) := by
              conv_rhs => rw [List.take_drop, e3]
            rw [e4]
            have e5 : (content.drop i).drop ((15 + j + 7) - 7) =
                (content.drop (i + 15)).drop j := by
              rw [List.drop_drop, List.drop_drop]
              congr 1
              omega
            rw [e5]
            exact ciStarts_take 7 hlast (le_of_eq hcl)

/-- C8: the website-generation parser: (1) when the fence-stripped, trimmed
text is valid JSON (other than bare `null`) whose `html`/`css` properties
are the strings `mh`/`c`, the result is exactly `{html := mh, css := c}`;
(2) wrapping a backtick-free response in a ```json fence parses
identically; (3) on JSON-parse failure with a DOCTYPE match, the result is
the extracted document plus the first style block's contents (or `""`);
(4) when no HTML can be recovered by either path the call fails with the
parse error; (5) a DOCTYPE match is an infix of the raw content starting
with `<!DOCTYPE html>` and ending with `</html>`, case-insensitively. -/
theorem C8_generateWebsite_parse_pipeline (content mh c : List Char)
    (v : Json) :
    (jsonParse (cleanContent content) = some v → v ≠ Json.null →
      jsGetField v htmlKey = Json.str mh →
      jsGetField v cssKey = Json.str c →
      generateWebsiteParse content =
        Except.ok { html := Json.str mh, css := Json.str c }) ∧
    ((∀ ch ∈ content, ch ≠ '\x60') →
      jsonParse (cleanContent content) = some v → v ≠ Json.null →
      generateWebsiteParse (fenceWrap content) =
        generateWebsiteParse content) ∧
    (jsonParse (cleanContent content) = none →
      doctypeMatch content = some mh →
      generateWebsiteParse content =
        Except.ok { html := Json.str mh,
                    css := Json.str ((styleMatch content).getD []) }) ∧
    (jsonParse (cleanContent content) = none →
      doctypeMatch content = none →
      generateWebsiteParse content = Except.error generateFailMsg) ∧
    (doctypeMatch content = some mh →
      (∃ pre post, content = pre ++ mh ++ post) ∧
      ciStarts doctypeLit mh = true ∧
      ciStarts htmlCloseLit (mh.drop (mh.length - htmlCloseLit.length)) =
        true) := by
  refine ⟨?_, ?_, ?_, ?_, ?_⟩
  · intro hp hv hh hc2
    have hred : generateWebsiteParse content =
        Except.ok { html := jsOr (jsGetField v htmlKey) (Json.str []),
                    css := jsOr (jsGetField v cssKey) (Json.str []) } := by
      cases v with
      | null => exact absurd rfl hv
      | bool b => unfold generateWebsiteParse; rw [hp]
      | num r => unfold generateWebsiteParse; rw [hp]
      | str s2 => unfold generateWebsiteParse; rw [hp]
      | arr xs => unfold generateWebsiteParse; rw [hp]
      | obj kvs => unfold generateWebsiteParse; rw [hp]
    rw [hred, hh, hc2, jsOr_str_empty, jsOr_str_empty]
  · intro hb hp hv
    have hclean := cleanContent_fenceWrap content hb
    unfold generateWebsiteParse
    rw [hclean, hp]
    cases v with
    | null => exact absurd rfl hv
    | bool b => rfl
    | num r => rfl
    | str s2 => rfl
    | arr xs => rfl
    | obj kvs => rfl
  · intro hp hd
    unfold generateWebsiteParse
    rw [hp]
    unfold generateFallbackExtract
    rw [hd]
    cases hs : styleMatch content <;> rfl
  · intro hp hd
    unfold generateWebsiteParse
    rw [hp]
    unfold generateFallbackExtract
    rw [hd]
  · intro hd
    exact doctypeMatch_sound hd

/-- Witness for C8: the fenced structured response parses to exactly its
`html`/`css` fields. -/
theorem C8_witness :
    generateWebsiteParse sampleFencedResponse =
      Except.ok { html := Json.str "<p>x</p>".toList,
                  css := Json.str "y".toList } :=
  (C8_generateWebsite_parse_pipeline sampleFencedResponse "<p>x</p>".toList
      "y".toList sampleParsedObj).1 rfl (fun hne => Json.noConfusion hne)
    rfl rfl

/-- C9 is refuted: on a provider response that fails the structured parse
but contains an extractable HTML document, `regenerateSection` does *not*
preserve the caller's previous HTML/CSS — it returns the extracted document
with an empty css, discarding both previous values. -/
theorem C9_counterexample :
    regenerateSectionParse regenFailureResponse "PREV".toList "PCSS".toList =
      Except.ok { html := Json.str "<!DOCTYPE html><html></html>".toList,
                  css := Json.str [] } ∧
    Json.str ([] : List Char) ≠ Json.str "PCSS".toList ∧
    Json.str "<!DOCTYPE html><html></html>".toList ≠
      Json.str "PREV".toList := by
  refine ⟨rfl, ?_, ?_⟩
  · intro hEq
    exact absurd (Json.str.inj hEq) (by decide)
  · intro hEq
    exact absurd (Json.str.inj hEq) (by decide)

/-- C9 (amended): on parse failure `regenerateSection` falls back to
pattern extraction and returns the extracted HTML with an *empty* css; the
caller's previous HTML/CSS are used only when the structured parse succeeds
(not as `null`) but its `html`/`css` fields are missing or falsy; and when
parse failure meets failed pattern extraction the call fails with the parse
error. -/
theorem C9_regenerate_fallback (content prev pcss mh : List Char)
    (v : Json) :
    (jsonParse (cleanContent content) = none →
      doctypeMatch content = some mh →
      regenerateSectionParse content prev pcss =
        Except.ok { html := Json.str mh, css := Json.str [] }) ∧
    (jsonParse (cleanContent content) = none →
      doctypeMatch content = none →
      regenerateSectionParse content prev pcss =
        Except.error regenerateFailMsg) ∧
    (jsonParse (cleanContent content) = some v → v ≠ Json.null →
      jsTruthy (jsGetField v htmlKey) = false →
      jsTruthy (jsGetField v cssKey) = false →
      regenerateSectionParse content prev pcss =
        Except.ok { html := Json.str prev, css := Json.str pcss }) := by
  refine ⟨?_, ?_, ?_⟩
  · intro hp hd
    unfold regenerateSectionParse
    rw [hp]
    unfold regenerateFallbackExtract
    rw [hd]
  · intro hp hd
    unfold regenerateSectionParse
    rw [hp]
    unfold regenerateFallbackExtract
    rw [hd]
  · intro hp hv hth htc
    cases v with
    | null => exact absurd rfl hv
    | bool b =>
        unfold regenerateSectionParse
        rw [hp]
        simp [jsOr, hth, htc]
    | num r =>
        unfold regenerateSectionParse
        rw [hp]
        simp [jsOr, hth, htc]
    | str s2 =>
        unfold regenerateSectionParse
        rw [hp]
        simp [jsOr, hth, htc]
    | arr xs =>
        unfold regenerateSectionParse
        rw [hp]
        simp [jsOr, hth, htc]
    | obj kvs =>
        unfold regenerateSectionParse
        rw [hp]
        simp [jsOr, hth, htc]

/-- Witness for the amended C9: a structured-but-empty response (`"\x7b\x7d"`)
substitutes the caller's previous HTML and CSS. -/
theorem C9_witness :
    regenerateSectionParse "\x7b\x7d".toList "PREV".toList "PCSS".toList =
      Except.ok { html := Json.str "PREV".toList,
                  css := Json.str "PCSS".toList } :=
  (C9_regenerate_fallback "\x7b\x7d".toList "PREV".toList "PCSS".toList []
      (Json.obj [])).2.2 rfl (fun hne => Json.noConfusion hne) rfl rfl
